import Mathlib

/-!
Verification development for the page-speed-insight dashboard
(`src/src/App.tsx` and its earlier variant `src/unnamed/part_003`).

JavaScript numbers are embedded as exact fractions (`JsNum`): an integer
numerator over a natural denominator, kept unreduced so that every
operation is a plain structural computation on `Int` and `Nat` (and hence
evaluates inside the kernel).  The bridge `JsNum.val` maps a fraction to
`ℚ` for order-of-magnitude reasoning; all range lemmas assume positive
denominators, which every constructor below maintains.

`Math.random()` is modelled as an oracle `g : ℕ → JsNum` supplying the
successive draws, indexed in the order the source calls `Math.random()`.
The browser clock (`new Date().toISOString()`) is modelled as a `now`
string parameter, `toLocaleDateString` as a `dateFmt : String → String`
parameter, and the `new URL(...)` syntax check as a `validURL : String →
Bool` parameter: each is an external interface of the code under
`src/`, quantified over in the theorems.
-/

/-- Exact embedding of a JavaScript number: `num / den`, unreduced. -/
structure JsNum where
  num : Int
  den : Nat
deriving DecidableEq

instance : OfNat JsNum n := ⟨⟨n, 1⟩⟩

/-- Decimal literals such as `0.35` denote `35 / 100`. -/
instance : OfScientific JsNum :=
  ⟨fun m e d => if e then ⟨m, 10 ^ d⟩ else ⟨m * 10 ^ d, 1⟩⟩

def JsNum.add (a b : JsNum) : JsNum :=
  ⟨a.num * b.den + b.num * a.den, a.den * b.den⟩

def JsNum.sub (a b : JsNum) : JsNum :=
  ⟨a.num * b.den - b.num * a.den, a.den * b.den⟩

def JsNum.mul (a b : JsNum) : JsNum :=
  ⟨a.num * b.num, a.den * b.den⟩

/-- Division; never called with a zero divisor by the code. -/
def JsNum.div (a b : JsNum) : JsNum :=
  ⟨a.num * b.den * b.num.sign, a.den * b.num.natAbs⟩

instance : Add JsNum := ⟨JsNum.add⟩

instance : Sub JsNum := ⟨JsNum.sub⟩

instance : Mul JsNum := ⟨JsNum.mul⟩

instance : Div JsNum := ⟨JsNum.div⟩

instance : LT JsNum := ⟨fun a b => a.num * (b.den : Int) < b.num * (a.den : Int)⟩

instance : LE JsNum := ⟨fun a b => a.num * (b.den : Int) ≤ b.num * (a.den : Int)⟩

instance (a b : JsNum) : Decidable (a < b) :=
  inferInstanceAs (Decidable (a.num * (b.den : Int) < b.num * (a.den : Int)))

instance (a b : JsNum) : Decidable (a ≤ b) :=
  inferInstanceAs (Decidable (a.num * (b.den : Int) ≤ b.num * (a.den : Int)))

/-- Value equality of two fractions (JavaScript `===` on numbers). -/
def JsNum.veq (a b : JsNum) : Bool :=
  a.num * (b.den : Int) == b.num * (a.den : Int)

/-- The rational value of a fraction (proof-side bridge only). -/
def JsNum.val (a : JsNum) : ℚ := (a.num : ℚ) / (a.den : ℚ)

/-- Embedding of `Math.floor`. -/
def JsNum.jsFloor (a : JsNum) : Int := Int.fdiv a.num a.den

/-- Embedding of `Math.round` (floor of `x + 1/2`). -/
def JsNum.jsRound (a : JsNum) : Int := Int.fdiv (2 * a.num + a.den) (2 * a.den)

/-- Decimal digits of a natural number, most significant first (fuelled). -/
def natDigitsAux : Nat → Nat → List Char → List Char
  | 0, _, acc => acc
  | fuel + 1, n, acc =>
    if n = 0 then acc
    else natDigitsAux fuel (n / 10) (Char.ofNat (48 + n % 10) :: acc)

def natToString (n : Nat) : String :=
  if n = 0 then "0" else String.mk (natDigitsAux (n + 1) n [])

def intToString (i : Int) : String :=
  if i < 0 then "-" ++ natToString i.natAbs else natToString i.natAbs

/-- Left-pad a digit string with zeros to width `w`. -/
def padZeros (w : Nat) (s : String) : String :=
  String.mk (List.replicate (w - s.length) '0') ++ s

/-- Embedding of `Number.prototype.toFixed(d)`: round `|x| * 10^d` to the nearest
integer, ties away from zero, and print with `d` decimals; the sign is
taken from the exact value. -/
def toFixed (d : Nat) (a : JsNum) : String :=
  let scale := 10 ^ d
  let n := (2 * a.num.natAbs * scale + a.den) / (2 * a.den)
  let sign := if a.num < 0 then "-" else ""
  if d = 0 then sign ++ natToString (n / scale)
  else sign ++ natToString (n / scale) ++ "." ++ padZeros d (natToString (n % scale))

/-- Digits of a `parseFloat`-style prefix: integer part. -/
def parseIntPart : List Char → Nat → Nat × List Char
  | [], acc => (acc, [])
  | c :: cs, acc =>
    if c.isDigit then parseIntPart cs (acc * 10 + (c.toNat - 48)) else (acc, c :: cs)

/-- Digits after the decimal point: numerator and scale. -/
def parseFracPart : List Char → Nat → Nat → Nat × Nat
  | [], acc, scale => (acc, scale)
  | c :: cs, acc, scale =>
    if c.isDigit then parseFracPart cs (acc * 10 + (c.toNat - 48)) (scale * 10)
    else (acc, scale)

/-- Embedding of `parseFloat` on the decimal strings this code produces (an optional
minus sign, digits, an optional fraction).  The `NaN` result for a
digit-free string, unreachable here, is modelled as `0`. -/
def jsParseFloat (s : String) : JsNum :=
  let (neg, cs) :=
    match s.toList with
    | '-' :: rest => (true, rest)
    | cs => (false, cs)
  let (ip, rest) := parseIntPart cs 0
  let (fp, scale) :=
    match rest with
    | '.' :: ds => parseFracPart ds 0 1
    | _ => (0, 1)
  let mag : Int := ip * scale + fp
  ⟨if neg then -mag else mag, scale⟩

/-- If `pat` is a prefix of `s`, return the rest of `s`. -/
def dropPat : List Char → List Char → Option (List Char)
  | [], s => some s
  | _ :: _, [] => none
  | p :: ps, c :: cs => if p = c then dropPat ps cs else none

/-- Split a character list around the first occurrence of `pat`. -/
def findSplit (pat : List Char) : List Char → Option (List Char × List Char)
  | [] => (dropPat pat []).map (fun r => ([], r))
  | c :: cs =>
    match dropPat pat (c :: cs) with
    | some r => some ([], r)
    | none => (findSplit pat cs).map (fun p => (c :: p.1, p.2))

/-- JavaScript `String.prototype.replace` with a plain-string pattern:
replace the first occurrence only. -/
def jsReplaceFirst (s pat rep : String) : String :=
  match findSplit pat.toList s.toList with
  | some (pre, post) => String.mk pre ++ rep ++ String.mk post
  | none => s

/-- JavaScript `String.prototype.trim`. -/
def jsTrim (s : String) : String :=
  String.mk (((s.toList.dropWhile Char.isWhitespace).reverse.dropWhile
    Char.isWhitespace).reverse)

/-- The device union `'Mobile' | 'Desktop'` (App.tsx line 30). -/
inductive Device where
  | mobile
  | desktop
deriving DecidableEq

def deviceStr : Device → String
  | .mobile => "Mobile"
  | .desktop => "Desktop"

/-- One category block of `PerformanceResult.categories` (App.tsx lines 5-14). -/
structure CategoryScore where
  score : JsNum
  title : String
deriving DecidableEq

/-- One audit record of `PerformanceResult.audits` (App.tsx lines 15-22). -/
structure AuditRec where
  title : String
  score : JsNum
  displayValue : String
  description : String
deriving DecidableEq

/-- The `PerformanceResult` interface (App.tsx lines 4-26); the audit map always holds
exactly the six keys the generator writes, embedded as fields. -/
structure PerformanceResult where
  performance : CategoryScore
  seo : CategoryScore
  fcp : AuditRec
  lcp : AuditRec
  cls : AuditRec
  si : AuditRec
  tbt : AuditRec
  interactive : AuditRec
  lighthouseVersion : String
  fetchTime : String
  finalUrl : String
deriving DecidableEq

/-- One element of the `results` state (App.tsx line 57). -/
structure Entry where
  url : String
  result : PerformanceResult
  device : Device
deriving DecidableEq

/-- The `StoredResult` interface (App.tsx lines 28-33). -/
structure StoredResult where
  url : String
  device : Device
  totalLoadingTime : JsNum
  timestamp : String
deriving DecidableEq

/-- The `SavedUrl` interface (App.tsx lines 35-40). -/
structure SavedUrl where
  id : String
  name : String
  url : String
  selected : Bool
deriving DecidableEq

/-- The generator `generateMockResults` (App.tsx lines 183-252): the eight `Math.random()`
calls are the draws `g i` through `g (i+7)`, in source order. -/
def generateMockResults (url : String) (device : Device) (now : String)
    (g : Nat → JsNum) (i : Nat) : PerformanceResult :=
  let deviceMultiplier : JsNum := match device with | .desktop => 0.7 | .mobile => 1.0
  let performanceScore :=
    (0.6 + g i * 0.35) * (match device with | .desktop => 1.1 | .mobile => 1.0)
  let seoScore := 0.7 + g (i + 1) * 0.25
  let fcp := (1200 + g (i + 2) * 1800) * deviceMultiplier
  let lcp := (2000 + g (i + 3) * 3000) * deviceMultiplier
  let cls := g (i + 4) * 0.25
  let si := (1500 + g (i + 5) * 2500) * deviceMultiplier
  let tbt := g (i + 6) * 300
  let tti := (3000 + g (i + 7) * 4000) * deviceMultiplier
  { performance := { score := performanceScore, title := "Performance" }
    seo := { score := seoScore, title := "SEO" }
    fcp :=
      { title := "First Contentful Paint"
        score := if fcp < 1800 then 0.9 else if fcp < 3000 then 0.5 else 0.2
        displayValue := toFixed 1 (fcp / 1000) ++ " s"
        description := "First Contentful Paint marks the time at which the first text or image is painted." }
    lcp :=
      { title := "Largest Contentful Paint"
        score := if lcp < 2500 then 0.9 else if lcp < 4000 then 0.5 else 0.2
        displayValue := toFixed 1 (lcp / 1000) ++ " s"
        description := "Largest Contentful Paint marks the time at which the largest text or image is painted." }
    cls :=
      { title := "Cumulative Layout Shift"
        score := if cls < 0.1 then 0.9 else if cls < 0.25 then 0.5 else 0.2
        displayValue := toFixed 3 cls
        description := "Cumulative Layout Shift measures the movement of visible elements within the viewport." }
    si :=
      { title := "Speed Index"
        score := if si < 3400 then 0.9 else if si < 5800 then 0.5 else 0.2
        displayValue := toFixed 1 (si / 1000) ++ " s"
        description := "Speed Index shows how quickly the contents of a page are visibly populated." }
    tbt :=
      { title := "Total Blocking Time"
        score := if tbt < 200 then 0.9 else if tbt < 600 then 0.5 else 0.2
        displayValue := intToString tbt.jsRound ++ " ms"
        description := "Sum of all time periods between FCP and Time to Interactive, when task length exceeded 50ms." }
    interactive :=
      { title := "Time to Interactive"
        score := if tti < 3800 then 0.9 else if tti < 7300 then 0.5 else 0.2
        displayValue := toFixed 1 (tti / 1000) ++ " s"
        description := "Time to interactive is the amount of time it takes for the page to become fully interactive." }
    lighthouseVersion := "10.4.0"
    fetchTime := now
    finalUrl := url }

/-- Lookup `getPreviousResult` (App.tsx lines 155-164). -/
def getPreviousResult (previousResults : List StoredResult) (url : String)
    (device : Device) : Option JsNum :=
  (previousResults.find? (fun r => r.url == url && r.device == device)).map
    (·.totalLoadingTime)

/-- The delta function `calculateDifference` (App.tsx lines 167-174). -/
def calculateDifference (current : JsNum) (previous : Option JsNum) : String :=
  match previous with
  | none => "N/A"
  | some p =>
    let diff := p - current
    if (0 : JsNum) < diff then "+" ++ toFixed 3 diff else toFixed 3 diff

/-- The `StoredResult` built from one entry inside `savePreviousResults`
(App.tsx lines 98-106). -/
def toStored (item : Entry) : StoredResult :=
  { url := item.url
    device := item.device
    totalLoadingTime :=
      jsParseFloat (jsReplaceFirst item.result.interactive.displayValue " s" "")
    timestamp := item.result.fetchTime }

/-- Merge of one new result into the accumulated list (App.tsx lines
133-142): overwrite the first entry with the same `(url, device)` key,
else append. -/
def mergeOne : List StoredResult → StoredResult → List StoredResult
  | [], n => [n]
  | e :: rest, n =>
    if e.url == n.url && e.device == n.device then n :: rest
    else e :: mergeOne rest n

/-- The batch merge performed by the deferred write (App.tsx lines 132-143). -/
def mergeResults (existing news : List StoredResult) : List StoredResult :=
  news.foldl mergeOne existing

inductive JsError where
  | referenceError (name : String)
deriving DecidableEq

/-- Identifiers bound in the scope of `savePreviousResults` before its
line 146 executes; `saved` is not among them. -/
def saveLocalBindings : List String :=
  ["currentResults", "newStoredResults", "existingStored", "existingResults",
   "updatedResults"]

/-- Evaluating an identifier: a `ReferenceError` when it is unbound. -/
def jsLookup (env : List String) (x : String) : Except JsError Unit :=
  if x ∈ env then Except.ok () else Except.error (JsError.referenceError x)

/-- The `try` block of `savePreviousResults` (App.tsx lines 97-148): build
the new stored results, schedule the deferred merge-and-write (line 131),
then evaluate the unbound identifier `saved` (line 146).  Returns the
scheduled storage writes and the block's outcome. -/
def savePreviousResultsTry (existing : List StoredResult)
    (currentResults : List Entry) :
    List (List StoredResult) × Except JsError Unit :=
  let newStoredResults := currentResults.map toStored
  let scheduled := [mergeResults existing newStoredResults]
  (scheduled, (jsLookup saveLocalBindings "saved").map (fun _ => ()))

/-- The function `savePreviousResults` (App.tsx lines 96-152): the `catch` swallows the
error, so the caller always sees a plain return. -/
def savePreviousResults (existing : List StoredResult)
    (currentResults : List Entry) : List (List StoredResult) × Unit :=
  let r := savePreviousResultsTry existing currentResults
  (r.1, match r.2 with | Except.ok u => u | Except.error _ => ())

/-- Observable actions of one `analyzeWebsite` invocation. -/
inductive Event where
  | setError (msg : String)
  | resetResults
  | appendResult (e : Entry)
  | writeStorage (s : List StoredResult)
deriving DecidableEq

/-- The per-URL loop of `analyzeWebsite` (App.tsx lines 303-315): each
device analysis consumes one delay draw and then eight generator draws,
so one URL advances the oracle by 18 draws. -/
def runUrls (now : String) (g : Nat → JsNum) : List String → Nat → List Entry
  | [], _ => []
  | url :: rest, i =>
    { url := jsTrim url, result := generateMockResults (jsTrim url) Device.mobile now g (i + 1),
      device := Device.mobile }
    :: { url := jsTrim url, result := generateMockResults (jsTrim url) Device.desktop now g (i + 10),
         device := Device.desktop }
    :: runUrls now g rest (i + 18)

/-- The pipeline `analyzeWebsite` (App.tsx lines 271-326) as the list of observable
actions it performs, in order. -/
def analyzeWebsite (validURL : String → Bool) (now : String) (g : Nat → JsNum)
    (urls : List String) (existing : List StoredResult) : List Event :=
  let validUrls := urls.filter (fun url => jsTrim url ≠ "")
  if validUrls.length = 0 then
    [Event.setError "Please enter at least one valid URL"]
  else
    let invalidUrls := validUrls.filter (fun url => !validURL (jsTrim url))
    if invalidUrls.length > 0 then
      [Event.setError ("Invalid URLs: " ++ String.intercalate ", " invalidUrls)]
    else
      let analysisResults := runUrls now g validUrls 0
      Event.resetResults :: analysisResults.map Event.appendResult
        ++ (savePreviousResults existing analysisResults).1.map Event.writeStorage

/-- The entries appended to the Result Store during a trace. -/
def resultsOf (tr : List Event) : List Entry :=
  tr.filterMap (fun e => match e with | Event.appendResult x => some x | _ => none)

/-- The storage writes performed during a trace. -/
def writesOf (tr : List Event) : List (List StoredResult) :=
  tr.filterMap (fun e => match e with | Event.writeStorage s => some s | _ => none)

/-- The CSV header row (App.tsx lines 391-406). -/
def csvHeaders : List String :=
  ["Date", "Device", "Website Name", "Time to First Byte", "Start Render",
   "First Contentful Paint", "Speed Index", "Largest Contentful Paint",
   "Cumulative Layout Shift", "Total Blocking Time", "Page Weight",
   "Interaction to Next Paint (INP)", "Total Loading First View",
   "Difference (Previous - Current)"]

/-- One Mobile data row of the export (App.tsx lines 418-457), as its
field list plus the advanced oracle index: `ttfb` draws `g i`, the page
weight draws `g (i+1)`, and the INP cell draws `g (i+2)` and, on the
30% branch, also `g (i+3)`. -/
def mobileRowFields (dateFmt : String → String)
    (previousResults : List StoredResult) (item : Entry) (g : Nat → JsNum)
    (i : Nat) : List String × Nat :=
  let result := item.result
  let date := dateFmt result.fetchTime
  let websiteName := item.url
  let ttfb := toFixed 3 (g i * 0.3 + 0.15)
  let startRender := jsReplaceFirst result.fcp.displayValue " s" ""
  let fcp := jsReplaceFirst result.fcp.displayValue " s" ""
  let si := jsReplaceFirst result.si.displayValue " s" ""
  let lcp := jsReplaceFirst result.lcp.displayValue " s" ""
  let cls := result.cls.displayValue
  let tbt := jsReplaceFirst result.tbt.displayValue " ms" ""
  let pageWeight := (g (i + 1) * 5000 + 500).jsFloor
  let inpNext :=
    if g (i + 2) < 0.7 then ("No Data", i + 3)
    else (toFixed 2 (g (i + 3) * 0.3 + 0.05), i + 4)
  let totalLoading := jsReplaceFirst result.interactive.displayValue " s" ""
  let currentTotalLoading := jsParseFloat totalLoading
  let previousTotalLoading := getPreviousResult previousResults item.url item.device
  let difference := calculateDifference currentTotalLoading previousTotalLoading
  ([date, deviceStr item.device, websiteName, ttfb, startRender, fcp, si, lcp,
    cls, toFixed 3 (jsParseFloat tbt / 1000), intToString pageWeight,
    inpNext.1, totalLoading, difference], inpNext.2)

/-- One Desktop data row of the export (App.tsx lines 466-505); same
shape with the Desktop random ranges. -/
def desktopRowFields (dateFmt : String → String)
    (previousResults : List StoredResult) (item : Entry) (g : Nat → JsNum)
    (i : Nat) : List String × Nat :=
  let result := item.result
  let date := dateFmt result.fetchTime
  let websiteName := item.url
  let ttfb := toFixed 3 (g i * 0.2 + 0.1)
  let startRender := jsReplaceFirst result.fcp.displayValue " s" ""
  let fcp := jsReplaceFirst result.fcp.displayValue " s" ""
  let si := jsReplaceFirst result.si.displayValue " s" ""
  let lcp := jsReplaceFirst result.lcp.displayValue " s" ""
  let cls := result.cls.displayValue
  let tbt := jsReplaceFirst result.tbt.displayValue " ms" ""
  let pageWeight := (g (i + 1) * 6000 + 1000).jsFloor
  let inpNext :=
    if g (i + 2) < 0.5 then ("No Data", i + 3)
    else (toFixed 2 (g (i + 3) * 0.2 + 0.03), i + 4)
  let totalLoading := jsReplaceFirst result.interactive.displayValue " s" ""
  let currentTotalLoading := jsParseFloat totalLoading
  let previousTotalLoading := getPreviousResult previousResults item.url item.device
  let difference := calculateDifference currentTotalLoading previousTotalLoading
  ([date, deviceStr item.device, websiteName, ttfb, startRender, fcp, si, lcp,
    cls, toFixed 3 (jsParseFloat tbt / 1000), intToString pageWeight,
    inpNext.1, totalLoading, difference], inpNext.2)

/-- The `forEach` over one device group, threading the oracle index. -/
def buildRows (rowFn : Entry → (Nat → JsNum) → Nat → List String × Nat) :
    List Entry → (Nat → JsNum) → Nat → List (List String) × Nat
  | [], _, i => ([], i)
  | e :: rest, g, i =>
    let r := rowFn e g i
    let rs := buildRows rowFn rest g r.2
    (r.1 :: rs.1, rs.2)

/-- The data rows of the export, Mobile group then Desktop group, as
field lists. -/
def csvDataRows (dateFmt : String → String)
    (previousResults : List StoredResult) (results : List Entry)
    (g : Nat → JsNum) : List (List String) :=
  let mobileResults := results.filter (fun item => item.device == Device.mobile)
  let desktopResults := results.filter (fun item => item.device == Device.desktop)
  let m := buildRows (mobileRowFields dateFmt previousResults) mobileResults g 0
  let d := buildRows (desktopRowFields dateFmt previousResults) desktopResults g m.2
  m.1 ++ d.1

/-- The `csvRows` array of `generateCSVData` (App.tsx lines 387-507):
header, Mobile rows, the two separator blanks when both groups are
non-empty, then Desktop rows. -/
def csvLines (dateFmt : String → String) (previousResults : List StoredResult)
    (results : List Entry) (g : Nat → JsNum) : List String :=
  let mobileResults := results.filter (fun item => item.device == Device.mobile)
  let desktopResults := results.filter (fun item => item.device == Device.desktop)
  let m := buildRows (mobileRowFields dateFmt previousResults) mobileResults g 0
  let d := buildRows (desktopRowFields dateFmt previousResults) desktopResults g m.2
  String.intercalate "," csvHeaders
    :: m.1.map (String.intercalate ",")
    ++ (if mobileResults.length > 0 && desktopResults.length > 0 then ["", ""] else [])
    ++ d.1.map (String.intercalate ",")

/-- The exporter `generateCSVData` (App.tsx lines 387-508). -/
def generateCSVData (dateFmt : String → String)
    (previousResults : List StoredResult) (results : List Entry)
    (g : Nat → JsNum) : String :=
  if results.length = 0 then ""
  else String.intercalate "\n" (csvLines dateFmt previousResults results g)

/-- The initial URL-input list (App.tsx line 50). -/
def initialUrls : List String := [""]

/-- Handler `addUrlField` (App.tsx lines 254-256). -/
def addUrlField (urls : List String) : List String := urls ++ [""]

/-- Handler `removeUrlField` (App.tsx lines 258-263): drop the entry at `index`
unless only one entry remains. -/
def removeUrlField (urls : List String) (index : Nat) : List String :=
  if urls.length > 1 then (urls.enum.filter (fun p => p.1 ≠ index)).map (·.2)
  else urls

/-- Handler `updateUrl` (App.tsx lines 265-269). -/
def updateUrl (urls : List String) (index : Nat) (value : String) : List String :=
  urls.set index value

/-- Handler `loadSelectedUrls` (App.tsx lines 612-620): replace the list only
when at least one saved URL is selected. -/
def loadSelectedUrls (savedUrls : List SavedUrl) (urls : List String) :
    List String :=
  let selectedUrls := (savedUrls.filter (·.selected)).map (·.url)
  if selectedUrls.length = 0 then urls else selectedUrls

/-- Modelled from the spec: the claimed FCP score bucketing, reading
"FCP strictly below 1800 ms yields 0.9, 1800-3000 ms yields 0.5, strictly
above 3000 ms yields 0.2, including at the boundary values themselves",
so both 1800 and 3000 fall in the middle bucket. -/
def specFcpBucket (fcp : JsNum) : JsNum :=
  if fcp < 1800 then 0.9 else if fcp ≤ 3000 then 0.5 else 0.2

/-- The `(url, device)` key of a persisted entry. -/
def keyOf (r : StoredResult) : String × Device := (r.url, r.device)

/-- The shape shared by every export data row: all fields are functions
of the entry and the prior-results store except the three supplied
strings (time-to-first-byte, page weight, INP), which are the only
randomized cells. -/
def rowTemplate (dateFmt : String → String)
    (previousResults : List StoredResult) (item : Entry)
    (ttfb pageWeight inp : String) : List String :=
  [dateFmt item.result.fetchTime, deviceStr item.device, item.url, ttfb,
   jsReplaceFirst item.result.fcp.displayValue " s" "",
   jsReplaceFirst item.result.fcp.displayValue " s" "",
   jsReplaceFirst item.result.si.displayValue " s" "",
   jsReplaceFirst item.result.lcp.displayValue " s" "",
   item.result.cls.displayValue,
   toFixed 3 (jsParseFloat (jsReplaceFirst item.result.tbt.displayValue " ms" "") / 1000),
   pageWeight, inp,
   jsReplaceFirst item.result.interactive.displayValue " s" "",
   calculateDifference
     (jsParseFloat (jsReplaceFirst item.result.interactive.displayValue " s" ""))
     (getPreviousResult previousResults item.url item.device)]

theorem JsNum.ofNat_def (n : Nat) : (OfNat.ofNat n : JsNum) = ⟨n, 1⟩ := rfl

theorem JsNum.ofSci_def (m : Nat) (e : Bool) (d : Nat) :
    (OfScientific.ofScientific m e d : JsNum) =
      if e then ⟨m, 10 ^ d⟩ else ⟨m * 10 ^ d, 1⟩ := rfl

theorem JsNum.lt_def (a b : JsNum) :
    a < b ↔ a.num * (b.den : Int) < b.num * (a.den : Int) := Iff.rfl

theorem JsNum.le_def (a b : JsNum) :
    a ≤ b ↔ a.num * (b.den : Int) ≤ b.num * (a.den : Int) := Iff.rfl

theorem JsNum.add_num (a b : JsNum) :
    (a + b).num = a.num * b.den + b.num * a.den := rfl

theorem JsNum.add_den (a b : JsNum) : (a + b).den = a.den * b.den := rfl

theorem JsNum.sub_num (a b : JsNum) :
    (a - b).num = a.num * b.den - b.num * a.den := rfl

theorem JsNum.sub_den (a b : JsNum) : (a - b).den = a.den * b.den := rfl

theorem JsNum.mul_num (a b : JsNum) : (a * b).num = a.num * b.num := rfl

theorem JsNum.mul_den (a b : JsNum) : (a * b).den = a.den * b.den := rfl

theorem JsNum.le_trans_lt {a b : JsNum} (h : a < b) : a ≤ b := Int.le_of_lt h

theorem toFixed_three_zero (d : Nat) : toFixed 3 ⟨0, d⟩ = "0.000" := by
  have h : d / (2 * d) = 0 := by
    cases d with
    | zero => rfl
    | succ k => exact Nat.div_eq_of_lt (by omega)
  simp [toFixed, h]
  decide

theorem toFixed_neg_sign (d : Nat) (a : JsNum) (h : a.num < 0) :
    ∃ s : String, toFixed d a = "-" ++ s := by
  simp only [toFixed]
  rw [if_pos h]
  by_cases hd : d = 0
  · rw [if_pos hd]
    exact ⟨_, rfl⟩
  · rw [if_neg hd]
    exact ⟨_, rfl⟩

/-- C2: the delta function returns the literal "N/A" whenever the
previous value is null; otherwise it returns `previous - current`
formatted to 3 decimals, `+`-prefixed when positive, with the natural
minus sign when negative, and exactly "0.000" when previous equals
current; in particular delta(5, 6) = "+1.000" and delta(6, 5) =
"-1.000". -/
theorem calculateDifference_spec :
    (∀ current : JsNum, calculateDifference current none = "N/A") ∧
    (∀ current previous : JsNum,
      calculateDifference current (some previous) =
        if (0 : JsNum) < previous - current then
          "+" ++ toFixed 3 (previous - current)
        else toFixed 3 (previous - current)) ∧
    (∀ current previous : JsNum, JsNum.veq previous current = true →
      calculateDifference current (some previous) = "0.000") ∧
    calculateDifference 5 (some 6) = "+1.000" ∧
    calculateDifference 6 (some 5) = "-1.000" ∧
    (∀ current previous : JsNum, (0 : JsNum) < previous - current →
      calculateDifference current (some previous) =
        "+" ++ toFixed 3 (previous - current)) ∧
    (∀ current previous : JsNum, previous - current < (0 : JsNum) →
      ∃ s : String, calculateDifference current (some previous) = "-" ++ s) := by
  refine ⟨fun c => rfl, fun c p => rfl, ?_, by decide, by decide, ?_, ?_⟩
  · intro c p h
    have hnum : (p - c).num = 0 := by
      simp only [JsNum.veq, beq_iff_eq] at h
      simpa [JsNum.sub_num] using sub_eq_zero_of_eq h
    have hzero : p - c = ⟨0, (p - c).den⟩ := by
      cases hpc : p - c with
      | mk n d => simp only [hpc] at hnum; simp [hnum]
    have hlt : ¬ ((0 : JsNum) < p - c) := by
      rw [JsNum.lt_def, hnum, JsNum.ofNat_def]
      simp
    calc calculateDifference c (some p)
        = toFixed 3 (p - c) := by simp [calculateDifference, hlt]
      _ = "0.000" := by rw [hzero]; exact toFixed_three_zero _
  · intro c p h
    simp [calculateDifference, h]
  · intro c p h
    have hnum : (p - c).num < 0 := by
      simpa [JsNum.lt_def, JsNum.ofNat_def] using h
    have hlt : ¬ ((0 : JsNum) < p - c) := by
      rw [JsNum.lt_def, JsNum.ofNat_def]
      simp
      omega
    have heq : calculateDifference c (some p) = toFixed 3 (p - c) := by
      simp [calculateDifference, hlt]
    rw [heq]
    exact toFixed_neg_sign 3 (p - c) hnum

/-- C2 witness: delta at equal previous and current values is "0.000". -/
theorem calculateDifference_spec_witness :
    calculateDifference 5 (some 5) = "0.000" :=
  calculateDifference_spec.2.2.1 5 5 (by decide)

/-- C9: every call to savePreviousResults evaluates the unbound
identifier `saved` and so raises a ReferenceError inside its own try
block, after the deferred storage write has been scheduled; the catch
swallows the error, so the caller observes a normal return and the
scheduled write still carries the merged results. -/
theorem savePreviousResults_reference_error (existing : List StoredResult)
    (currentResults : List Entry) :
    savePreviousResultsTry existing currentResults =
      ([mergeResults existing (currentResults.map toStored)],
        Except.error (JsError.referenceError "saved")) ∧
    savePreviousResults existing currentResults =
      ([mergeResults existing (currentResults.map toStored)], ()) := by
  have h : jsLookup saveLocalBindings "saved" =
      Except.error (JsError.referenceError "saved") := rfl
  constructor
  · simp [savePreviousResultsTry, h, Except.map]
  · simp [savePreviousResults, savePreviousResultsTry, h, Except.map]

/-- C3 counterexample: the draw 9/10 is a legal `Math.random()` value
(in [0,1) with positive denominator), yet the Desktop performance score
it produces, (0.6 + 0.9 * 0.35) * 1.1 = 1.0065, exceeds 1 — refuting
the claimed [0,1] bound for the performance category score. -/
theorem perfScore_exceeds_one :
    ((0 : JsNum) ≤ ⟨9, 10⟩ ∧ (⟨9, 10⟩ : JsNum) < 1 ∧ 0 < (⟨9, 10⟩ : JsNum).den) ∧
    (1 : JsNum) <
      (generateMockResults "https://example.com" Device.desktop "t"
        (fun _ => ⟨9, 10⟩) 0).performance.score := by decide

/-- C3 amended: the performance and seo formulas are as claimed; the seo
score lies in [0,1]; the Mobile performance score lies in [0,1]; but the
Desktop performance score lies in [0.66, 1.045) and exceeds 1 exactly
when the draw exceeds 68/77 (about 0.883), so the claimed [0,1] range
holds for every score except the Desktop performance score. -/
theorem scores_range_amended (url now : String) (device : Device)
    (g : Nat → JsNum) (i : Nat)
    (h0 : (0 : JsNum) ≤ g i) (h1 : g i < 1) (hd : 0 < (g i).den)
    (k0 : (0 : JsNum) ≤ g (i + 1)) (k1 : g (i + 1) < 1)
    (kd : 0 < (g (i + 1)).den) :
    (generateMockResults url device now g i).performance.score =
      (0.6 + g i * 0.35) *
        (match device with | Device.desktop => (1.1 : JsNum) | Device.mobile => 1.0) ∧
    (generateMockResults url device now g i).seo.score = 0.7 + g (i + 1) * 0.25 ∧
    (0 : JsNum) ≤ (generateMockResults url device now g i).seo.score ∧
    (generateMockResults url device now g i).seo.score ≤ 1 ∧
    (0 : JsNum) ≤ (generateMockResults url device now g i).performance.score ∧
    (device = Device.mobile →
      (generateMockResults url device now g i).performance.score ≤ 1) ∧
    (generateMockResults url device now g i).performance.score < 1.045 ∧
    (device = Device.desktop →
      (0.66 : JsNum) ≤ (generateMockResults url device now g i).performance.score) ∧
    (device = Device.desktop →
      ((1 : JsNum) < (generateMockResults url device now g i).performance.score ↔
        (⟨68, 77⟩ : JsNum) < g i)) := by
  have ha : 0 ≤ (g i).num := by
    simpa [JsNum.le_def, JsNum.ofNat_def] using h0
  have hb : (g i).num < ((g i).den : Int) := by
    simpa [JsNum.lt_def, JsNum.ofNat_def] using h1
  have hbz : (0 : Int) < ((g i).den : Int) := by exact_mod_cast hd
  have ka : 0 ≤ (g (i + 1)).num := by
    simpa [JsNum.le_def, JsNum.ofNat_def] using k0
  have kb : (g (i + 1)).num < ((g (i + 1)).den : Int) := by
    simpa [JsNum.lt_def, JsNum.ofNat_def] using k1
  have kbz : (0 : Int) < ((g (i + 1)).den : Int) := by exact_mod_cast kd
  refine ⟨rfl, rfl, ?_, ?_, ?_, ?_, ?_, ?_, ?_⟩
  · show (0 : JsNum) ≤ 0.7 + g (i + 1) * 0.25
    rw [JsNum.le_def]
    simp only [JsNum.add_num, JsNum.add_den, JsNum.mul_num, JsNum.mul_den,
      JsNum.ofNat_def, JsNum.ofSci_def, if_true]
    push_cast
    nlinarith
  · show (0.7 + g (i + 1) * 0.25 : JsNum) ≤ 1
    rw [JsNum.le_def]
    simp only [JsNum.add_num, JsNum.add_den, JsNum.mul_num, JsNum.mul_den,
      JsNum.ofNat_def, JsNum.ofSci_def, if_true]
    push_cast
    nlinarith
  · cases device with
    | mobile =>
      show (0 : JsNum) ≤ (0.6 + g i * 0.35) * 1.0
      rw [JsNum.le_def]
      simp only [JsNum.add_num, JsNum.add_den, JsNum.mul_num, JsNum.mul_den,
        JsNum.ofNat_def, JsNum.ofSci_def, if_true]
      push_cast
      nlinarith
    | desktop =>
      show (0 : JsNum) ≤ (0.6 + g i * 0.35) * 1.1
      rw [JsNum.le_def]
      simp only [JsNum.add_num, JsNum.add_den, JsNum.mul_num, JsNum.mul_den,
        JsNum.ofNat_def, JsNum.ofSci_def, if_true]
      push_cast
      nlinarith
  · cases device with
    | mobile =>
      intro _
      show ((0.6 + g i * 0.35) * 1.0 : JsNum) ≤ 1
      rw [JsNum.le_def]
      simp only [JsNum.add_num, JsNum.add_den, JsNum.mul_num, JsNum.mul_den,
        JsNum.ofNat_def, JsNum.ofSci_def, if_true]
      push_cast
      nlinarith
    | desktop =>
      intro h
      exact absurd h (by decide)
  · cases device with
    | mobile =>
      show ((0.6 + g i * 0.35) * 1.0 : JsNum) < 1.045
      rw [JsNum.lt_def]
      simp only [JsNum.add_num, JsNum.add_den, JsNum.mul_num, JsNum.mul_den,
        JsNum.ofNat_def, JsNum.ofSci_def, if_true]
      push_cast
      nlinarith
    | desktop =>
      show ((0.6 + g i * 0.35) * 1.1 : JsNum) < 1.045
      rw [JsNum.lt_def]
      simp only [JsNum.add_num, JsNum.add_den, JsNum.mul_num, JsNum.mul_den,
        JsNum.ofNat_def, JsNum.ofSci_def, if_true]
      push_cast
      nlinarith
  · cases device with
    | mobile =>
      intro h
      exact absurd h (by decide)
    | desktop =>
      intro _
      show (0.66 : JsNum) ≤ (0.6 + g i * 0.35) * 1.1
      rw [JsNum.le_def]
      simp only [JsNum.add_num, JsNum.add_den, JsNum.mul_num, JsNum.mul_den,
        JsNum.ofNat_def, JsNum.ofSci_def, if_true]
      push_cast
      nlinarith
  · cases device with
    | mobile =>
      intro h
      exact absurd h (by decide)
    | desktop =>
      intro _
      show (1 : JsNum) < (0.6 + g i * 0.35) * 1.1 ↔ (⟨68, 77⟩ : JsNum) < g i
      rw [JsNum.lt_def, JsNum.lt_def]
      simp only [JsNum.add_num, JsNum.add_den, JsNum.mul_num, JsNum.mul_den,
        JsNum.ofNat_def, JsNum.ofSci_def, if_true]
      push_cast
      constructor
      · intro hx
        omega
      · intro hx
        omega

/-- C3 witness: the amended bounds instantiated at the draw 1/2. -/
theorem scores_range_amended_witness :
    (0 : JsNum) ≤ (generateMockResults "https://a.io" Device.mobile "t"
      (fun _ => ⟨1, 2⟩) 0).seo.score :=
  (scores_range_amended "https://a.io" "t" Device.mobile (fun _ => ⟨1, 2⟩) 0
    (by decide) (by decide) (by decide) (by decide) (by decide) (by decide)).2.2.1

theorem bucket_eq_of_lt {f : JsNum} (h3 : f < 3000) :
    (if f < 1800 then (0.9 : JsNum) else if f < 3000 then 0.5 else 0.2) =
      specFcpBucket f := by
  unfold specFcpBucket
  by_cases h18 : f < 1800
  · simp [h18]
  · simp [h18, h3, JsNum.le_trans_lt h3]

/-- C4: for every generated report the first-contentful-paint score
equals the spec's bucketing (0.9 below 1800 ms, 0.5 from 1800 ms up to
and including 3000 ms, 0.2 strictly above 3000 ms): the generated FCP is
always strictly below 3000 ms, so the only point where the code's
bucketing (which sends 3000 itself to 0.2) could disagree with the
spec's is never produced. -/
theorem fcp_bucket_spec (url now : String) (device : Device)
    (g : Nat → JsNum) (i : Nat)
    (h0 : (0 : JsNum) ≤ g (i + 2)) (h1 : g (i + 2) < 1)
    (hd : 0 < (g (i + 2)).den) :
    (generateMockResults url device now g i).fcp.score =
      specFcpBucket ((1200 + g (i + 2) * 1800) *
        (match device with | Device.desktop => (0.7 : JsNum) | Device.mobile => 1.0)) ∧
    (1200 + g (i + 2) * 1800) *
        (match device with | Device.desktop => (0.7 : JsNum) | Device.mobile => 1.0) <
      3000 := by
  have ha : 0 ≤ (g (i + 2)).num := by
    simpa [JsNum.le_def, JsNum.ofNat_def] using h0
  have hb : (g (i + 2)).num < ((g (i + 2)).den : Int) := by
    simpa [JsNum.lt_def, JsNum.ofNat_def] using h1
  have hbz : (0 : Int) < ((g (i + 2)).den : Int) := by exact_mod_cast hd
  have h3000 : (1200 + g (i + 2) * 1800) *
      (match device with | Device.desktop => (0.7 : JsNum) | Device.mobile => 1.0) <
        3000 := by
    cases device with
    | mobile =>
      show ((1200 + g (i + 2) * 1800) * 1.0 : JsNum) < 3000
      rw [JsNum.lt_def]
      simp only [JsNum.add_num, JsNum.add_den, JsNum.mul_num, JsNum.mul_den,
        JsNum.ofNat_def, JsNum.ofSci_def, if_true]
      push_cast
      nlinarith
    | desktop =>
      show ((1200 + g (i + 2) * 1800) * 0.7 : JsNum) < 3000
      rw [JsNum.lt_def]
      simp only [JsNum.add_num, JsNum.add_den, JsNum.mul_num, JsNum.mul_den,
        JsNum.ofNat_def, JsNum.ofSci_def, if_true]
      push_cast
      nlinarith
  exact ⟨bucket_eq_of_lt h3000, h3000⟩

/-- C4 witness: the bucketing instantiated at the draw 1/2 on Mobile. -/
theorem fcp_bucket_spec_witness :
    (generateMockResults "https://a.io" Device.mobile "t"
        (fun _ => ⟨1, 2⟩) 0).fcp.score =
      specFcpBucket ((1200 + (fun _ : Nat => (⟨1, 2⟩ : JsNum)) 2 * 1800) * 1.0) :=
  (fcp_bucket_spec "https://a.io" "t" Device.mobile (fun _ => ⟨1, 2⟩) 0
    (by decide) (by decide) (by decide)).1

theorem enumFrom_filter_keep {α : Type} (idx : Nat) (l : List α) :
    ∀ m, idx < m →
      (List.enumFrom m l).filter (fun p => p.1 ≠ idx) = List.enumFrom m l := by
  induction l with
  | nil => intro m _; rfl
  | cons a t ih =>
    intro m h
    have hc : (decide ((m, a).1 ≠ idx)) = true := by simp; omega
    rw [List.enumFrom_cons, List.filter_cons, if_pos hc, ih (m + 1) (by omega)]

theorem enumFrom_filter_len {α : Type} (idx : Nat) (l : List α) :
    ∀ m, l.length - 1 ≤ ((List.enumFrom m l).filter (fun p => p.1 ≠ idx)).length := by
  induction l with
  | nil => intro m; simp
  | cons a t ih =>
    intro m
    by_cases hm : m = idx
    · have hc : (decide ((m, a).1 ≠ idx)) = false := by simp; omega
      have hk := enumFrom_filter_keep idx t (m + 1) (by omega)
      rw [List.enumFrom_cons, List.filter_cons, if_neg (by simp [hc]), hk]
      simp
    · have hc : (decide ((m, a).1 ≠ idx)) = true := by simp; omega
      have h3 := ih (m + 1)
      rw [List.enumFrom_cons, List.filter_cons, if_pos hc]
      simp only [List.length_cons]
      omega

/-- C10: the URL input list is never empty — it starts as a single blank
entry, addUrlField and updateUrl preserve or grow its length,
removeUrlField is a no-op when a single entry remains, and
loadSelectedUrls replaces the list only when at least one saved URL is
selected. -/
theorem urls_nonempty_invariant :
    initialUrls ≠ [] ∧
    (∀ urls : List String, urls ≠ [] → addUrlField urls ≠ []) ∧
    (∀ (urls : List String) (i : Nat) (v : String), urls ≠ [] →
      updateUrl urls i v ≠ []) ∧
    (∀ (urls : List String) (i : Nat), urls ≠ [] → removeUrlField urls i ≠ []) ∧
    (∀ (saved : List SavedUrl) (urls : List String), urls ≠ [] →
      loadSelectedUrls saved urls ≠ []) := by
  refine ⟨by decide, ?_, ?_, ?_, ?_⟩
  · intro urls _
    simp [addUrlField]
  · intro urls i v h
    have hlen : (updateUrl urls i v).length = urls.length := List.length_set urls i v
    intro hc
    apply h
    apply List.length_eq_zero.mp
    rw [← hlen, hc]
    rfl
  · intro urls i h
    simp only [removeUrlField]
    split
    · intro hc
      have h0 : ((urls.enum.filter (fun p => p.1 ≠ i)).map (·.2)).length = 0 := by
        rw [hc]; rfl
      rw [List.length_map] at h0
      have h1 := enumFrom_filter_len i urls 0
      have he : urls.enum = List.enumFrom 0 urls := rfl
      rw [he] at h0
      rename_i hl
      omega
    · exact h
  · intro saved urls h
    simp only [loadSelectedUrls]
    split
    · exact h
    · rename_i hs
      intro hc
      exact hs (by rw [hc]; rfl)

/-- C10 witness: removing the only remaining field leaves the list
non-empty. -/
theorem urls_nonempty_invariant_witness :
    removeUrlField [""] 0 ≠ [] :=
  urls_nonempty_invariant.2.2.2.1 [""] 0 (by decide)

theorem runUrls_length (now : String) (g : Nat → JsNum) :
    ∀ (us : List String) (i : Nat), (runUrls now g us i).length = 2 * us.length := by
  intro us
  induction us with
  | nil => intro i; rfl
  | cons u rest ih =>
    intro i
    simp only [runUrls, List.length_cons, ih (i + 18)]
    ring

theorem runUrls_get (now : String) (g : Nat → JsNum) :
    ∀ (us : List String) (i k : Nat) (hk : k < us.length),
      (∃ rm, (runUrls now g us i)[2 * k]? =
        some ⟨jsTrim (us.get ⟨k, hk⟩), rm, Device.mobile⟩) ∧
      (∃ rd, (runUrls now g us i)[2 * k + 1]? =
        some ⟨jsTrim (us.get ⟨k, hk⟩), rd, Device.desktop⟩) := by
  intro us
  induction us with
  | nil => intro i k hk; exact absurd hk (by simp)
  | cons u rest ih =>
    intro i k hk
    cases k with
    | zero =>
      refine ⟨⟨generateMockResults (jsTrim u) Device.mobile now g (i + 1), ?_⟩,
        ⟨generateMockResults (jsTrim u) Device.desktop now g (i + 10), ?_⟩⟩
      · show (runUrls now g (u :: rest) i)[0]? = _
        simp only [runUrls, List.getElem?_cons_zero]
        rfl
      · show (runUrls now g (u :: rest) i)[1]? = _
        simp only [runUrls, List.getElem?_cons_succ, List.getElem?_cons_zero]
        rfl
    | succ j =>
      have hj : j < rest.length := by simpa using hk
      obtain ⟨⟨rm, hm⟩, ⟨rd, hdd⟩⟩ := ih (i + 18) j hj
      have h2 : 2 * (j + 1) = 2 * j + 1 + 1 := by ring
      have h3 : 2 * (j + 1) + 1 = 2 * j + 1 + 1 + 1 := by ring
      refine ⟨⟨rm, ?_⟩, ⟨rd, ?_⟩⟩
      · rw [h2]
        simp only [runUrls, List.getElem?_cons_succ]
        exact hm
      · rw [h3]
        simp only [runUrls, List.getElem?_cons_succ]
        exact hdd

theorem resultsOf_writes (ws : List (List StoredResult)) :
    resultsOf (ws.map Event.writeStorage) = [] := by
  induction ws with
  | nil => rfl
  | cons w t ih =>
    simp only [List.map_cons, resultsOf, List.filterMap_cons] at ih ⊢
    exact ih

theorem resultsOf_appends (entries : List Entry) (tl : List Event) :
    resultsOf (entries.map Event.appendResult ++ tl) =
      entries ++ resultsOf tl := by
  induction entries with
  | nil => simp
  | cons e t ih =>
    simp only [List.map_cons, List.cons_append, resultsOf, List.filterMap_cons] at *
    rw [ih]

theorem resultsOf_run (entries : List Entry) (ws : List (List StoredResult)) :
    resultsOf (Event.resetResults :: entries.map Event.appendResult
      ++ ws.map Event.writeStorage) = entries := by
  have h0 : resultsOf (Event.resetResults :: (entries.map Event.appendResult
      ++ ws.map Event.writeStorage)) =
      resultsOf (entries.map Event.appendResult ++ ws.map Event.writeStorage) := by
    simp [resultsOf, List.filterMap_cons]
  rw [List.cons_append, h0, resultsOf_appends, resultsOf_writes, List.append_nil]

/-- C1: for a non-empty URL list in which every entry trims to a
non-blank string accepted by URL parsing, the pipeline appends exactly
2 × |urls| entries to the Result Store: for the k-th input URL, entry
2k is its Mobile result and entry 2k+1 its Desktop result, so
Mobile/Desktop pairs are contiguous and follow the input order with no
cross-URL interleaving. -/
theorem analyzeWebsite_pairs (validURL : String → Bool) (now : String)
    (g : Nat → JsNum) (urls : List String) (existing : List StoredResult)
    (hne : urls ≠ [])
    (hval : ∀ u ∈ urls, jsTrim u ≠ "" ∧ validURL (jsTrim u) = true) :
    (resultsOf (analyzeWebsite validURL now g urls existing)).length =
      2 * urls.length ∧
    ∀ k (hk : k < urls.length),
      (∃ rm, (resultsOf (analyzeWebsite validURL now g urls existing))[2 * k]? =
        some ⟨jsTrim (urls.get ⟨k, hk⟩), rm, Device.mobile⟩) ∧
      (∃ rd, (resultsOf (analyzeWebsite validURL now g urls existing))[2 * k + 1]? =
        some ⟨jsTrim (urls.get ⟨k, hk⟩), rd, Device.desktop⟩) := by
  have hfil : urls.filter (fun url => jsTrim url ≠ "") = urls :=
    List.filter_eq_self.mpr (fun u hu => decide_eq_true (hval u hu).1)
  have hinv : urls.filter (fun url => !validURL (jsTrim url)) = [] := by
    rw [List.filter_eq_nil_iff]
    intro u hu
    simp [(hval u hu).2]
  have hlen : ¬(urls.length = 0) := by
    simpa [List.length_eq_zero] using hne
  have htrace : analyzeWebsite validURL now g urls existing =
      Event.resetResults :: (runUrls now g urls 0).map Event.appendResult
        ++ (savePreviousResults existing (runUrls now g urls 0)).1.map
          Event.writeStorage := by
    simp only [analyzeWebsite, hfil, hinv]
    rw [if_neg hlen, if_neg (by simp)]
  rw [htrace, resultsOf_run]
  exact ⟨runUrls_length now g urls 0, fun k hk => runUrls_get now g urls 0 k hk⟩

/-- C1 witness: one valid URL yields exactly two entries. -/
theorem analyzeWebsite_pairs_witness :
    (resultsOf (analyzeWebsite (fun u => u == "https://a.io") "t"
      (fun _ => ⟨1, 2⟩) ["https://a.io"] [])).length = 2 * 1 :=
  (analyzeWebsite_pairs (fun u => u == "https://a.io") "t" (fun _ => ⟨1, 2⟩)
    ["https://a.io"] [] (by decide) (by decide)).1

/-- C5: with zero URLs surviving trimming the pipeline emits only the
no-input error; with survivors but at least one failing URL parsing it
emits only the invalid-URL error whose message lists every offending
URL; in both cases it appends nothing to the Result Store and performs
no storage write. -/
theorem analyzeWebsite_rejects (validURL : String → Bool) (now : String)
    (g : Nat → JsNum) (urls : List String) (existing : List StoredResult) :
    ((urls.filter (fun url => jsTrim url ≠ "")).length = 0 →
      analyzeWebsite validURL now g urls existing =
        [Event.setError "Please enter at least one valid URL"]) ∧
    ((urls.filter (fun url => jsTrim url ≠ "")).length ≠ 0 →
      ((urls.filter (fun url => jsTrim url ≠ "")).filter
          (fun url => !validURL (jsTrim url))).length > 0 →
      analyzeWebsite validURL now g urls existing =
        [Event.setError ("Invalid URLs: " ++ String.intercalate ", "
          ((urls.filter (fun url => jsTrim url ≠ "")).filter
            (fun url => !validURL (jsTrim url))))]) ∧
    (((urls.filter (fun url => jsTrim url ≠ "")).length = 0 ∨
        ((urls.filter (fun url => jsTrim url ≠ "")).filter
          (fun url => !validURL (jsTrim url))).length > 0) →
      resultsOf (analyzeWebsite validURL now g urls existing) = [] ∧
      writesOf (analyzeWebsite validURL now g urls existing) = []) := by
  have e1 : (urls.filter (fun url => jsTrim url ≠ "")).length = 0 →
      analyzeWebsite validURL now g urls existing =
        [Event.setError "Please enter at least one valid URL"] := by
    intro h
    simp only [analyzeWebsite]
    rw [if_pos h]
  have e2 : (urls.filter (fun url => jsTrim url ≠ "")).length ≠ 0 →
      ((urls.filter (fun url => jsTrim url ≠ "")).filter
          (fun url => !validURL (jsTrim url))).length > 0 →
      analyzeWebsite validURL now g urls existing =
        [Event.setError ("Invalid URLs: " ++ String.intercalate ", "
          ((urls.filter (fun url => jsTrim url ≠ "")).filter
            (fun url => !validURL (jsTrim url))))] := by
    intro h1 h2
    simp only [analyzeWebsite]
    rw [if_neg h1, if_pos h2]
  refine ⟨e1, e2, ?_⟩
  rintro (h | h)
  · rw [e1 h]
    exact ⟨rfl, rfl⟩
  · by_cases hz : (urls.filter (fun url => jsTrim url ≠ "")).length = 0
    · rw [e1 hz]
      exact ⟨rfl, rfl⟩
    · rw [e2 hz h]
      exact ⟨rfl, rfl⟩

/-- C5 witness: a list of blank entries is rejected with no work. -/
theorem analyzeWebsite_rejects_witness :
    resultsOf (analyzeWebsite (fun _ => false) "t" (fun _ => ⟨1, 2⟩) [" ", ""] []) = [] ∧
    writesOf (analyzeWebsite (fun _ => false) "t" (fun _ => ⟨1, 2⟩) [" ", ""] []) = [] :=
  (analyzeWebsite_rejects (fun _ => false) "t" (fun _ => ⟨1, 2⟩) [" ", ""] []).2.2
    (Or.inl (by decide))

theorem key_eq_of_match {e n : StoredResult}
    (h : (e.url == n.url && e.device == n.device) = true) : keyOf e = keyOf n := by
  simp only [Bool.and_eq_true, beq_iff_eq] at h
  simp [keyOf, h.1, h.2]

theorem key_ne_of_not_match {e n : StoredResult}
    (h : ¬((e.url == n.url && e.device == n.device) = true)) :
    keyOf e ≠ keyOf n := by
  simp only [Bool.and_eq_true, beq_iff_eq] at h
  intro hk
  simp only [keyOf, Prod.ext_iff] at hk
  exact h hk

theorem find_pred_iff {r : StoredResult} {u : String} {d : Device} :
    (r.url == u && r.device == d) = true ↔ keyOf r = (u, d) := by
  simp [Bool.and_eq_true, beq_iff_eq, keyOf, Prod.ext_iff]

theorem mergeOne_keys_mem (n : StoredResult) :
    ∀ l : List StoredResult, ∀ x ∈ (mergeOne l n).map keyOf,
      x = keyOf n ∨ x ∈ l.map keyOf := by
  intro l
  induction l with
  | nil =>
    intro x hx
    simp [mergeOne] at hx
    exact Or.inl hx
  | cons e rest ih =>
    intro x hx
    by_cases hc : (e.url == n.url && e.device == n.device) = true
    · rw [show mergeOne (e :: rest) n = n :: rest from by simp [mergeOne, hc]] at hx
      simp only [List.map_cons, List.mem_cons] at hx
      rcases hx with hx | hx
      · exact Or.inl hx
      · exact Or.inr (by simp [hx])
    · rw [show mergeOne (e :: rest) n = e :: mergeOne rest n from
        by simp [mergeOne, hc]] at hx
      simp only [List.map_cons, List.mem_cons] at hx
      rcases hx with hx | hx
      · exact Or.inr (by simp [hx])
      · rcases ih x hx with hy | hy
        · exact Or.inl hy
        · exact Or.inr (by simp [hy])

theorem mergeOne_nodup (n : StoredResult) :
    ∀ l : List StoredResult, (l.map keyOf).Nodup →
      ((mergeOne l n).map keyOf).Nodup := by
  intro l
  induction l with
  | nil => intro _; simp [mergeOne]
  | cons e rest ih =>
    intro h
    simp only [List.map_cons, List.nodup_cons] at h
    obtain ⟨hnotin, hrest⟩ := h
    by_cases hc : (e.url == n.url && e.device == n.device) = true
    · rw [show mergeOne (e :: rest) n = n :: rest from by simp [mergeOne, hc]]
      simp only [List.map_cons, List.nodup_cons]
      exact ⟨(key_eq_of_match hc) ▸ hnotin, hrest⟩
    · rw [show mergeOne (e :: rest) n = e :: mergeOne rest n from
        by simp [mergeOne, hc]]
      simp only [List.map_cons, List.nodup_cons]
      refine ⟨?_, ih hrest⟩
      intro hx
      rcases mergeOne_keys_mem n rest (keyOf e) hx with h1 | h1
      · exact key_ne_of_not_match hc h1
      · exact hnotin h1

theorem getPrev_mergeOne (n : StoredResult) (u : String) (d : Device) :
    ∀ l, getPreviousResult (mergeOne l n) u d =
      if keyOf n = (u, d) then some n.totalLoadingTime
      else getPreviousResult l u d := by
  intro l
  induction l with
  | nil =>
    by_cases hn : keyOf n = (u, d)
    · have hp : (n.url == u && n.device == d) = true := find_pred_iff.mpr hn
      simp [mergeOne, getPreviousResult, List.find?_cons, hp, hn]
    · have hp : (n.url == u && n.device == d) = false := by
        simpa using fun hc => hn (find_pred_iff.mp hc)
      simp [mergeOne, getPreviousResult, List.find?_cons, hp, hn]
  | cons e rest ih =>
    by_cases hc : (e.url == n.url && e.device == n.device) = true
    · rw [show mergeOne (e :: rest) n = n :: rest from by simp [mergeOne, hc]]
      have hkey := key_eq_of_match hc
      by_cases hn : keyOf n = (u, d)
      · have hp : (n.url == u && n.device == d) = true := find_pred_iff.mpr hn
        simp [getPreviousResult, List.find?_cons, hp, hn]
      · have hp : (n.url == u && n.device == d) = false := by
          simpa using fun hx => hn (find_pred_iff.mp hx)
        have hpe : (e.url == u && e.device == d) = false := by
          simpa using fun hx => hn (hkey.symm.trans (find_pred_iff.mp hx))
        simp [getPreviousResult, List.find?_cons, hp, hpe, hn]
    · rw [show mergeOne (e :: rest) n = e :: mergeOne rest n from
        by simp [mergeOne, hc]]
      by_cases he : (e.url == u && e.device == d) = true
      · have hne : keyOf n ≠ (u, d) := fun hn =>
          key_ne_of_not_match hc ((find_pred_iff.mp he).trans hn.symm)
        simp [getPreviousResult, List.find?_cons, he, hne]
      · have hpe : (e.url == u && e.device == d) = false := by simpa using he
        simp only [getPreviousResult, List.find?_cons, hpe]
        simp only [getPreviousResult] at ih
        simpa using ih

theorem mergeResults_lookup (u : String) (d : Device) :
    ∀ (news existing : List StoredResult), (news.map keyOf).Nodup →
      getPreviousResult (mergeResults existing news) u d =
        if (u, d) ∈ news.map keyOf then getPreviousResult news u d
        else getPreviousResult existing u d := by
  intro news
  induction news with
  | nil =>
    intro ex _
    simp [mergeResults]
  | cons n rest ih =>
    intro ex h
    simp only [List.map_cons, List.nodup_cons] at h
    obtain ⟨hnin, hrest⟩ := h
    have step : mergeResults ex (n :: rest) = mergeResults (mergeOne ex n) rest := rfl
    rw [step, ih (mergeOne ex n) hrest]
    by_cases hmem : (u, d) ∈ rest.map keyOf
    · rw [if_pos hmem, if_pos (by simp [hmem])]
      have hp : (n.url == u && n.device == d) = false :=
        Bool.eq_false_iff.mpr
          (fun hx => hnin (by rw [find_pred_iff.mp hx]; exact hmem))
      simp [getPreviousResult, List.find?_cons, hp]
    · rw [if_neg hmem]
      by_cases hn : keyOf n = (u, d)
      · rw [if_pos (by simp [hn]), getPrev_mergeOne, if_pos hn]
        have hp : (n.url == u && n.device == d) = true := find_pred_iff.mpr hn
        simp [getPreviousResult, List.find?_cons, hp]
      · rw [if_neg (by
            simp only [List.map_cons, List.mem_cons]
            rintro (hx | hx)
            · exact hn hx.symm
            · exact hmem hx),
          getPrev_mergeOne, if_neg hn]

theorem writesOf_appendResults (entries : List Entry) (tl : List Event) :
    writesOf (entries.map Event.appendResult ++ tl) = writesOf tl := by
  induction entries with
  | nil => simp
  | cons e t ih =>
    simp only [List.map_cons, List.cons_append, writesOf, List.filterMap_cons] at *
    rw [ih]

theorem writesOf_writes (ws : List (List StoredResult)) :
    writesOf (ws.map Event.writeStorage) = ws := by
  induction ws with
  | nil => rfl
  | cons w t ih =>
    simp only [List.map_cons, writesOf, List.filterMap_cons] at *
    rw [ih]

theorem analyzeWebsite_success (validURL : String → Bool) (now : String)
    (g : Nat → JsNum) (urls : List String) (existing : List StoredResult)
    (hne : urls ≠ [])
    (hval : ∀ u ∈ urls, jsTrim u ≠ "" ∧ validURL (jsTrim u) = true) :
    analyzeWebsite validURL now g urls existing =
      (Event.resetResults :: (runUrls now g urls 0).map Event.appendResult)
        ++ [Event.writeStorage (mergeResults existing
          ((runUrls now g urls 0).map toStored))] := by
  have hfil : urls.filter (fun url => jsTrim url ≠ "") = urls :=
    List.filter_eq_self.mpr (fun u hu => decide_eq_true (hval u hu).1)
  have hinv : urls.filter (fun url => !validURL (jsTrim url)) = [] := by
    rw [List.filter_eq_nil_iff]
    intro u hu
    simp [(hval u hu).2]
  have hlen : ¬(urls.length = 0) := by
    simpa [List.length_eq_zero] using hne
  simp only [analyzeWebsite, hfil, hinv]
  rw [if_neg hlen, if_neg (by simp)]
  rfl

/-- C7: the merge keeps at most one persisted entry per (url, device)
key; after a merge, a lookup returns the run's value for keys the run
produced and the previously stored value otherwise (overwrite
semantics, with genuinely new keys appended); and a successful pipeline
run performs exactly one storage write, as its final action, carrying
the whole run's merged results in one batch. -/
theorem persisted_delta_invariant :
    (∀ (existing news : List StoredResult), (existing.map keyOf).Nodup →
      ((mergeResults existing news).map keyOf).Nodup) ∧
    (∀ (existing news : List StoredResult) (u : String) (d : Device),
      (news.map keyOf).Nodup →
      getPreviousResult (mergeResults existing news) u d =
        if (u, d) ∈ news.map keyOf then getPreviousResult news u d
        else getPreviousResult existing u d) ∧
    (∀ (validURL : String → Bool) (now : String) (g : Nat → JsNum)
      (urls : List String) (existing : List StoredResult),
      urls ≠ [] → (∀ u ∈ urls, jsTrim u ≠ "" ∧ validURL (jsTrim u) = true) →
      writesOf (analyzeWebsite validURL now g urls existing) =
        [mergeResults existing
          ((resultsOf (analyzeWebsite validURL now g urls existing)).map toStored)] ∧
      (analyzeWebsite validURL now g urls existing).getLast? =
        some (Event.writeStorage (mergeResults existing
          ((resultsOf (analyzeWebsite validURL now g urls existing)).map
            toStored)))) := by
  refine ⟨?_, ?_, ?_⟩
  · intro existing news h
    induction news generalizing existing with
    | nil => exact h
    | cons n rest ih => exact ih (mergeOne existing n) (mergeOne_nodup n existing h)
  · intro existing news u d h
    exact mergeResults_lookup u d news existing h
  · intro validURL now g urls existing hne hval
    rw [analyzeWebsite_success validURL now g urls existing hne hval]
    have hres : resultsOf ((Event.resetResults ::
        (runUrls now g urls 0).map Event.appendResult)
          ++ [Event.writeStorage (mergeResults existing
            ((runUrls now g urls 0).map toStored))]) = runUrls now g urls 0 := by
      have := resultsOf_run (runUrls now g urls 0)
        [mergeResults existing ((runUrls now g urls 0).map toStored)]
      simpa using this
    rw [hres]
    constructor
    · have hw : writesOf ((Event.resetResults ::
          (runUrls now g urls 0).map Event.appendResult)
            ++ [Event.writeStorage (mergeResults existing
              ((runUrls now g urls 0).map toStored))]) =
          [mergeResults existing ((runUrls now g urls 0).map toStored)] := by
        rw [List.cons_append]
        show writesOf (Event.resetResults :: ((runUrls now g urls 0).map
          Event.appendResult ++ [Event.writeStorage _])) = _
        simp only [writesOf, List.filterMap_cons]
        rw [show ([Event.writeStorage (mergeResults existing
            ((runUrls now g urls 0).map toStored))] : List Event) =
          ([mergeResults existing ((runUrls now g urls 0).map toStored)]).map
            Event.writeStorage from rfl]
        exact writesOf_appendResults (runUrls now g urls 0) _
      exact hw
    · exact List.getLast?_concat _

/-- C7 witness: merging one run's entry for an existing key yields the
new value on lookup. -/
theorem persisted_delta_invariant_witness :
    getPreviousResult (mergeResults
        [⟨"https://a.io", Device.mobile, ⟨1, 1⟩, "t1"⟩]
        [⟨"https://a.io", Device.mobile, ⟨2, 1⟩, "t2"⟩]) "https://a.io" Device.mobile =
      if ("https://a.io", Device.mobile) ∈
          ([⟨"https://a.io", Device.mobile, ⟨2, 1⟩, "t2"⟩] :
            List StoredResult).map keyOf then
        getPreviousResult [⟨"https://a.io", Device.mobile, ⟨2, 1⟩, "t2"⟩]
          "https://a.io" Device.mobile
      else
        getPreviousResult [⟨"https://a.io", Device.mobile, ⟨1, 1⟩, "t1"⟩]
          "https://a.io" Device.mobile :=
  persisted_delta_invariant.2.1
    [⟨"https://a.io", Device.mobile, ⟨1, 1⟩, "t1"⟩]
    [⟨"https://a.io", Device.mobile, ⟨2, 1⟩, "t2"⟩]
    "https://a.io" Device.mobile (by decide)

theorem buildRows_length (rowFn : Entry → (Nat → JsNum) → Nat → List String × Nat) :
    ∀ (l : List Entry) (g : Nat → JsNum) (i : Nat),
      ((buildRows rowFn l g i).1).length = l.length := by
  intro l
  induction l with
  | nil => intro g i; rfl
  | cons e t ih =>
    intro g i
    simp only [buildRows, List.length_cons, ih]

theorem buildRows_get (rowFn : Entry → (Nat → JsNum) → Nat → List String × Nat) :
    ∀ (l : List Entry) (g : Nat → JsNum) (i k : Nat) (hk : k < l.length),
      ∃ j, ((buildRows rowFn l g i).1)[k]? = some (rowFn (l.get ⟨k, hk⟩) g j).1 := by
  intro l
  induction l with
  | nil => intro g i k hk; exact absurd hk (by simp)
  | cons e t ih =>
    intro g i k hk
    have hstep : (buildRows rowFn (e :: t) g i).1 =
        (rowFn e g i).1 :: (buildRows rowFn t g (rowFn e g i).2).1 := rfl
    cases k with
    | zero =>
      refine ⟨i, ?_⟩
      rw [hstep, List.getElem?_cons_zero]
      rfl
    | succ m =>
      have hm : m < t.length := by simpa using hk
      obtain ⟨j, hj⟩ := ih g (rowFn e g i).2 m hm
      refine ⟨j, ?_⟩
      rw [hstep, List.getElem?_cons_succ]
      exact hj

/-- C6: with both device groups non-empty, the export line list is the
14-column header row, then one data row per Mobile entry in their
original order, then exactly two blank separator lines, then one data
row per Desktop entry in their original order — 1 + N + 2 + M lines in
all — and the CSV text is these lines joined by newlines. -/
theorem generateCSVData_structure (dateFmt : String → String)
    (prev : List StoredResult) (results : List Entry) (g : Nat → JsNum)
    (hm : 0 < (results.filter (fun item => item.device == Device.mobile)).length)
    (hd : 0 < (results.filter (fun item => item.device == Device.desktop)).length) :
    csvHeaders.length = 14 ∧
    csvLines dateFmt prev results g =
      String.intercalate "," csvHeaders
        :: ((buildRows (mobileRowFields dateFmt prev)
            (results.filter (fun item => item.device == Device.mobile)) g 0).1.map
          (String.intercalate ","))
        ++ (["", ""]
        ++ ((buildRows (desktopRowFields dateFmt prev)
            (results.filter (fun item => item.device == Device.desktop)) g
            (buildRows (mobileRowFields dateFmt prev)
              (results.filter (fun item => item.device == Device.mobile)) g 0).2).1.map
          (String.intercalate ","))) ∧
    (buildRows (mobileRowFields dateFmt prev)
        (results.filter (fun item => item.device == Device.mobile)) g 0).1.length =
      (results.filter (fun item => item.device == Device.mobile)).length ∧
    (buildRows (desktopRowFields dateFmt prev)
        (results.filter (fun item => item.device == Device.desktop)) g
        (buildRows (mobileRowFields dateFmt prev)
          (results.filter (fun item => item.device == Device.mobile)) g 0).2).1.length =
      (results.filter (fun item => item.device == Device.desktop)).length ∧
    (csvLines dateFmt prev results g).length =
      1 + (results.filter (fun item => item.device == Device.mobile)).length + 2 +
        (results.filter (fun item => item.device == Device.desktop)).length ∧
    (∀ k (hk : k < (results.filter (fun item => item.device == Device.mobile)).length),
      ∃ j, ((buildRows (mobileRowFields dateFmt prev)
          (results.filter (fun item => item.device == Device.mobile)) g 0).1)[k]? =
        some (mobileRowFields dateFmt prev
          ((results.filter (fun item => item.device == Device.mobile)).get ⟨k, hk⟩)
          g j).1) ∧
    (∀ k (hk : k < (results.filter (fun item => item.device == Device.desktop)).length),
      ∃ j, ((buildRows (desktopRowFields dateFmt prev)
          (results.filter (fun item => item.device == Device.desktop)) g
          (buildRows (mobileRowFields dateFmt prev)
            (results.filter (fun item => item.device == Device.mobile)) g 0).2).1)[k]? =
        some (desktopRowFields dateFmt prev
          ((results.filter (fun item => item.device == Device.desktop)).get ⟨k, hk⟩)
          g j).1) ∧
    generateCSVData dateFmt prev results g =
      String.intercalate "\n" (csvLines dateFmt prev results g) := by
  have hcond : ((results.filter (fun item => item.device == Device.mobile)).length > 0
      && (results.filter (fun item => item.device == Device.desktop)).length > 0) =
        true := by
    simp only [Bool.and_eq_true, decide_eq_true_eq]
    exact ⟨hm, hd⟩
  have hL : csvLines dateFmt prev results g =
      String.intercalate "," csvHeaders
        :: ((buildRows (mobileRowFields dateFmt prev)
            (results.filter (fun item => item.device == Device.mobile)) g 0).1.map
          (String.intercalate ","))
        ++ (["", ""]
        ++ ((buildRows (desktopRowFields dateFmt prev)
            (results.filter (fun item => item.device == Device.desktop)) g
            (buildRows (mobileRowFields dateFmt prev)
              (results.filter (fun item => item.device == Device.mobile)) g 0).2).1.map
          (String.intercalate ","))) := by
    simp only [csvLines, hcond, if_true]
    simp [List.append_assoc]
  refine ⟨rfl, hL, buildRows_length _ _ g 0, buildRows_length _ _ g _, ?_, ?_, ?_, ?_⟩
  · rw [hL]
    simp [buildRows_length]
    omega
  · intro k hk
    exact buildRows_get (mobileRowFields dateFmt prev) _ g 0 k hk
  · intro k hk
    exact buildRows_get (desktopRowFields dateFmt prev) _ g _ k hk
  · have hres : ¬(results.length = 0) := by
      have := List.length_filter_le (fun item => item.device == Device.mobile) results
      omega
    simp only [generateCSVData]
    rw [if_neg hres]

/-- C6 witness: one analyzed URL gives a 1 + 1 + 2 + 1 line export. -/
theorem generateCSVData_structure_witness :
    (csvLines (fun s => s) []
        (runUrls "t" (fun _ => ⟨1, 2⟩) ["https://a.io"] 0) (fun _ => ⟨1, 2⟩)).length =
      1 + ((runUrls "t" (fun _ => ⟨1, 2⟩) ["https://a.io"] 0).filter
          (fun item => item.device == Device.mobile)).length + 2 +
        ((runUrls "t" (fun _ => ⟨1, 2⟩) ["https://a.io"] 0).filter
          (fun item => item.device == Device.desktop)).length :=
  (generateCSVData_structure (fun s => s) []
    (runUrls "t" (fun _ => ⟨1, 2⟩) ["https://a.io"] 0) (fun _ => ⟨1, 2⟩)
    (by decide) (by decide)).2.2.2.2.1

theorem mobileRowFields_template (dateFmt : String → String)
    (prev : List StoredResult) (item : Entry) (g : Nat → JsNum) (i : Nat) :
    (mobileRowFields dateFmt prev item g i).1 =
      rowTemplate dateFmt prev item (toFixed 3 (g i * 0.3 + 0.15))
        (intToString ((g (i + 1) * 5000 + 500).jsFloor))
        (if g (i + 2) < 0.7 then "No Data"
         else toFixed 2 (g (i + 3) * 0.3 + 0.05)) := by
  simp only [mobileRowFields, rowTemplate]
  split_ifs <;> rfl

theorem desktopRowFields_template (dateFmt : String → String)
    (prev : List StoredResult) (item : Entry) (g : Nat → JsNum) (i : Nat) :
    (desktopRowFields dateFmt prev item g i).1 =
      rowTemplate dateFmt prev item (toFixed 3 (g i * 0.2 + 0.1))
        (intToString ((g (i + 1) * 6000 + 1000).jsFloor))
        (if g (i + 2) < 0.5 then "No Data"
         else toFixed 2 (g (i + 3) * 0.2 + 0.03)) := by
  simp only [desktopRowFields, rowTemplate]
  split_ifs <;> rfl

theorem rowTemplate_cols (dateFmt : String → String)
    (prev : List StoredResult) (item : Entry) (a b c a2 b2 c2 : String) :
    ∀ j, j ≠ 3 → j ≠ 10 → j ≠ 11 →
      (rowTemplate dateFmt prev item a b c)[j]? =
        (rowTemplate dateFmt prev item a2 b2 c2)[j]? := by
  intro j h3 h10 h11
  simp only [rowTemplate]
  rcases j with _ | _ | _ | _ | _ | _ | _ | _ | _ | _ | _ | _ | _ | _ | j <;>
    first
      | rfl
      | omega

theorem csvDataRows_cols (dateFmt : String → String) (prev : List StoredResult)
    (results : List Entry) (g g2 : Nat → JsNum) (r j : Nat)
    (h3 : j ≠ 3) (h10 : j ≠ 10) (h11 : j ≠ 11) :
    ((csvDataRows dateFmt prev results g)[r]?.map (fun row => row[j]?)) =
      ((csvDataRows dateFmt prev results g2)[r]?.map (fun row => row[j]?)) := by
  simp only [csvDataRows]
  have lm1 := buildRows_length (mobileRowFields dateFmt prev)
    (results.filter (fun item => item.device == Device.mobile)) g 0
  have lm2 := buildRows_length (mobileRowFields dateFmt prev)
    (results.filter (fun item => item.device == Device.mobile)) g2 0
  have ld1 := buildRows_length (desktopRowFields dateFmt prev)
    (results.filter (fun item => item.device == Device.desktop)) g
    (buildRows (mobileRowFields dateFmt prev)
      (results.filter (fun item => item.device == Device.mobile)) g 0).2
  have ld2 := buildRows_length (desktopRowFields dateFmt prev)
    (results.filter (fun item => item.device == Device.desktop)) g2
    (buildRows (mobileRowFields dateFmt prev)
      (results.filter (fun item => item.device == Device.mobile)) g2 0).2
  rw [List.getElem?_append, List.getElem?_append, lm1, lm2]
  by_cases hr : r < (results.filter (fun item => item.device == Device.mobile)).length
  · rw [if_pos hr, if_pos hr]
    obtain ⟨j1, hj1⟩ := buildRows_get (mobileRowFields dateFmt prev)
      (results.filter (fun item => item.device == Device.mobile)) g 0 r hr
    obtain ⟨j2, hj2⟩ := buildRows_get (mobileRowFields dateFmt prev)
      (results.filter (fun item => item.device == Device.mobile)) g2 0 r hr
    rw [hj1, hj2, Option.map_some', Option.map_some',
      mobileRowFields_template, mobileRowFields_template]
    exact congrArg some (rowTemplate_cols dateFmt prev _ _ _ _ _ _ _ j h3 h10 h11)
  · rw [if_neg hr, if_neg hr]
    by_cases hr2 : r - (results.filter (fun item => item.device == Device.mobile)).length <
        (results.filter (fun item => item.device == Device.desktop)).length
    · obtain ⟨j1, hj1⟩ := buildRows_get (desktopRowFields dateFmt prev)
        (results.filter (fun item => item.device == Device.desktop)) g
        (buildRows (mobileRowFields dateFmt prev)
          (results.filter (fun item => item.device == Device.mobile)) g 0).2 _ hr2
      obtain ⟨j2, hj2⟩ := buildRows_get (desktopRowFields dateFmt prev)
        (results.filter (fun item => item.device == Device.desktop)) g2
        (buildRows (mobileRowFields dateFmt prev)
          (results.filter (fun item => item.device == Device.mobile)) g2 0).2 _ hr2
      rw [hj1, hj2, Option.map_some', Option.map_some',
        desktopRowFields_template, desktopRowFields_template]
      exact congrArg some (rowTemplate_cols dateFmt prev _ _ _ _ _ _ _ j h3 h10 h11)
    · rw [List.getElem?_eq_none (by omega), List.getElem?_eq_none (by omega)]

/-- C8: in the export's data rows, every column other than
time-to-first-byte (3), page weight (10) and INP (11) is a function of
the stored entry and prior results alone, hence identical across two
exports of the same Result Store under any two random sources; and the
three randomized columns genuinely differ for suitable draws, all other
cells being equal. -/
theorem export_rerandomized_columns :
    (∀ (dateFmt : String → String) (prev : List StoredResult)
      (results : List Entry) (g g2 : Nat → JsNum) (r j : Nat),
      j ≠ 3 → j ≠ 10 → j ≠ 11 →
      ((csvDataRows dateFmt prev results g)[r]?.map (fun row => row[j]?)) =
        ((csvDataRows dateFmt prev results g2)[r]?.map (fun row => row[j]?))) ∧
    ((csvDataRows (fun s => s) [] (runUrls "t" (fun _ => ⟨1, 2⟩) ["https://a.io"] 0)
        (fun _ => ⟨0, 1⟩))[0]?.map (fun row => row[3]?) ≠
      (csvDataRows (fun s => s) [] (runUrls "t" (fun _ => ⟨1, 2⟩) ["https://a.io"] 0)
        (fun _ => ⟨4, 5⟩))[0]?.map (fun row => row[3]?)) ∧
    ((csvDataRows (fun s => s) [] (runUrls "t" (fun _ => ⟨1, 2⟩) ["https://a.io"] 0)
        (fun _ => ⟨0, 1⟩))[0]?.map (fun row => row[10]?) ≠
      (csvDataRows (fun s => s) [] (runUrls "t" (fun _ => ⟨1, 2⟩) ["https://a.io"] 0)
        (fun _ => ⟨4, 5⟩))[0]?.map (fun row => row[10]?)) ∧
    ((csvDataRows (fun s => s) [] (runUrls "t" (fun _ => ⟨1, 2⟩) ["https://a.io"] 0)
        (fun _ => ⟨0, 1⟩))[0]?.map (fun row => row[11]?) ≠
      (csvDataRows (fun s => s) [] (runUrls "t" (fun _ => ⟨1, 2⟩) ["https://a.io"] 0)
        (fun _ => ⟨4, 5⟩))[0]?.map (fun row => row[11]?)) := by
  exact ⟨fun dateFmt prev results g g2 r j h3 h10 h11 =>
    csvDataRows_cols dateFmt prev results g g2 r j h3 h10 h11,
    by decide, by decide, by decide⟩

/-- C8 witness: the date column of the first row agrees across two
different random sources. -/
theorem export_rerandomized_columns_witness :
    ((csvDataRows (fun s => s) [] (runUrls "t" (fun _ => ⟨1, 2⟩) ["https://a.io"] 0)
        (fun _ => ⟨0, 1⟩))[0]?.map (fun row => row[0]?)) =
      ((csvDataRows (fun s => s) [] (runUrls "t" (fun _ => ⟨1, 2⟩) ["https://a.io"] 0)
        (fun _ => ⟨4, 5⟩))[0]?.map (fun row => row[0]?)) :=
  export_rerandomized_columns.1 (fun s => s) []
    (runUrls "t" (fun _ => ⟨1, 2⟩) ["https://a.io"] 0)
    (fun _ => ⟨0, 1⟩) (fun _ => ⟨4, 5⟩) 0 0 (by decide) (by decide) (by decide)
